import Mathlib

/-!
Shallow embedding of the sdrive flask backend (file listing, reconciliation
and lifecycle endpoints) and verification of the specification claims.

The embedding models:
* the Mongo `files` collection as a `List FileRecord` (list order = the
  store's internal document order, which Mongo iterates deterministically
  for a fixed snapshot);
* the S3 bucket as a `List S3Object`;
* datetimes as seconds (`Nat`); where the code renders a datetime with
  `isoformat()` or compares stored ISO strings we use `isoOfTime`, a
  zero-padded decimal rendering that is strictly monotone (hence
  order-isomorphic to the datetime itself, as ISO-8601 rendering is);
* JSON scalar values inside generic metadata dictionaries as strings.

Each definition is translated from the named Python source function.
-/

namespace SDrive

/-- Rendering of a datetime (modelled as seconds) to its ISO string, as
`datetime.isoformat()` produces.  Zero-padded so that the string order
agrees with the time order, exactly as ISO-8601 strings do. -/
def isoOfTime (n : Nat) : String :=
  let s := toString n
  String.mk (List.replicate (12 - s.length) '0') ++ s

/-- An item of a listing / details response (the JSON object built for one
file).  `metadata` is the nested `metadata` dictionary as an association
list; `exists_in_db` / `recently_uploaded` are only present in some
endpoint variants, hence `Option`. -/
structure FileObj where
  file_name : String
  simple_url : String
  metadata : List (String × String)
  upload_complete : String
  last_modified : Option String
  id : String
  s3_key : String
  exists_in_db : Option Bool := none
  recently_uploaded : Option Bool := none
deriving DecidableEq

/-- A document of the Mongo `files` collection.  `oid` models the BSON
`_id` (as its hex string), `id` the application-level `id` field
(`s3_key` with `/` replaced by `-`), `metadata` the user-supplied
metadata dictionary (absent key modelled as `none`), and
`cached_metadata` / `metadata_cached_at` the S3-metadata cache fields. -/
structure FileRecord where
  oid : String
  id : String
  s3_key : String
  user : String
  filename : String
  upload_complete : String
  last_modified : Option Nat := none
  created_at : Nat := 0
  metadata : Option (List (String × String)) := none
  cached_metadata : Option FileObj := none
  metadata_cached_at : Option Nat := none
deriving DecidableEq

/-- An object stored in the S3 bucket. -/
structure S3Object where
  key : String
  storageClass : Option String := none
  size : Nat := 0
  contentType : Option String := none
  lastModified : Nat := 0
deriving DecidableEq

/-- `head_object`: S3 stat of a single key; `none` models the 404
`ClientError`. -/
def s3Head (s3 : List S3Object) (key : String) : Option S3Object :=
  s3.find? (fun o => o.key == key)

/-- Insertion step of a stable sort: `a` is placed before the first
element `b` with `le a b` (so before every element tied with it that was
originally later). -/
def insertLe (le : α → α → Bool) (a : α) : List α → List α
  | [] => [a]
  | b :: l => if le a b then a :: b :: l else b :: insertLe le a l

/-- Stable sort used to model Mongo's `sort` on a fixed snapshot and
Python's `list.sort` (both leave tied elements in input order). -/
def stableSort (le : α → α → Bool) : List α → List α
  | [] => []
  | a :: l => insertLe le a (stableSort le l)

/-- Lexicographic (code-point) strict comparison of character lists: the
order Python string comparison and BSON string comparison use. -/
def listLt : List Char → List Char → Bool
  | [], [] => false
  | [], _ :: _ => true
  | _ :: _, [] => false
  | a :: as, b :: bs =>
    if a.toNat < b.toNat then true
    else if b.toNat < a.toNat then false
    else listLt as bs

/-- Lexicographic (code-point) non-strict comparison of character
lists. -/
def listLe : List Char → List Char → Bool
  | [], _ => true
  | _ :: _, [] => false
  | a :: as, b :: bs =>
    if a.toNat < b.toNat then true
    else if b.toNat < a.toNat then false
    else listLe as bs

/-- Strict string comparison (code-point lexicographic). -/
def strLt (a b : String) : Bool := listLt a.toList b.toList

/-- Non-strict string comparison. -/
def strLe (a b : String) : Bool := listLe a.toList b.toList

/-- Python `p in s` ·startswith·-style check / the anchored regex
`^p` used in the Mongo queries. -/
def strIsPfx (p s : String) : Bool := p.toList.isPrefixOf s.toList

/-- Fuel-driven worker for `strSplit`; `sep` is non-empty wherever it is
used, and the fuel is at least the input length, so the 0-fuel row is
never reached on those inputs. -/
def strSplitAux (sep : List Char) : Nat → List Char → List Char → List String
  | _, acc, [] => [String.mk acc.reverse]
  | 0, acc, l => [String.mk (acc.reverse ++ l)]
  | fuel + 1, acc, c :: rest =>
    if sep.isPrefixOf (c :: rest) then
      String.mk acc.reverse :: strSplitAux sep fuel [] (List.drop sep.length (c :: rest))
    else
      strSplitAux sep fuel (c :: acc) rest

/-- Python `s.split(sep)` for a non-empty separator: non-overlapping
occurrences, left to right, keeping empty pieces. -/
def strSplit (s sep : String) : List String :=
  strSplitAux sep.toList (s.toList.length + 1) [] s.toList

/-- Fuel-driven worker for `strReplace`. -/
def strReplaceAux (pat rep : List Char) : Nat → List Char → List Char
  | _, [] => []
  | 0, l => l
  | fuel + 1, c :: rest =>
    if pat.isPrefixOf (c :: rest) then
      rep ++ strReplaceAux pat rep fuel (List.drop pat.length (c :: rest))
    else
      c :: strReplaceAux pat rep fuel rest

/-- Python `s.replace(pat, rep)` for a non-empty pattern. -/
def strReplace (s pat rep : String) : String :=
  String.mk (strReplaceAux pat.toList rep.toList (s.toList.length + 1) s.toList)

/-- Python `s.lower()` (only applied to ASCII storage-class names). -/
def strToLower (s : String) : String := String.mk (s.toList.map Char.toLower)

/-- Python `c in s` for a single character. -/
def strContainsChar (s : String) (c : Char) : Bool := s.toList.contains c

/-- Username key namespace derived from the requester's email:
`email.split('.com')[0].replace("@", "-")` (list_files.py line 88,
file_details.py line 40). -/
def derivePfx (email : String) : String :=
  strReplace ((strSplit email ".com").headD "") "@" "-"

/-- Filter used by `list_files_v2` for both `count_documents` and the
candidate `find` (list_files.py lines 113-116 and 152-155):
`upload_complete == "complete"` and `s3_key` matching the regex
`^<pfx1>` where `pfx1` already carries the trailing `/`.  Note that the
query has no condition on the record's `user` field. -/
def completeWithPfx (pfx1 : String) (r : FileRecord) : Bool :=
  r.upload_complete == "complete" && strIsPfx pfx1 r.s3_key

/-- Ascending comparison of optional stored `last_modified` strings under
BSON order: a missing field (null) sorts below every string. -/
def optStrLe (a b : Option String) : Bool :=
  match a, b with
  | none, _ => true
  | some _, none => false
  | some x, some y => strLe x y

/-- The stored `last_modified` value of a record as the ISO string Mongo
holds (the field is written with `isoformat()` throughout the code). -/
def lmKey (r : FileRecord) : Option String :=
  r.last_modified.map isoOfTime

/-- Descending `sort("last_modified", -1)` comparator: `a` may come
before `b` iff `b`'s key is at most `a`'s. -/
def lmDescLe (a b : FileRecord) : Bool :=
  optStrLe (lmKey b) (lmKey a)

/-- Bucket URL prefix produced by `get_bucket_url()` (utils.py); the
value is environment-derived, modelled as a fixed constant. -/
def bucketUrl : String := "https://bucket.s3.amazonaws.com/"

/-- Python `key.split("/")[-1]`. -/
def lastSegment (key : String) : String :=
  (strSplit key "/").getLastD ""

/-- The response item `get_s3_metadata` builds from a successful
`head_object` (list_files.py lines 188-200). -/
def v2FreshObj (obj : S3Object) (key : String) : FileObj :=
  { file_name := lastSegment key
    simple_url := bucketUrl ++ key
    metadata := [("tier", strToLower (obj.storageClass.getD "standard")),
                 ("size", toString obj.size)]
    upload_complete := "complete"
    last_modified := some (isoOfTime obj.lastModified)
    id := key
    s3_key := key }

/-- Whether the record's cached S3 metadata is present and not expired
(list_files.py lines 179-184; TTL one hour). `datetime` subtraction is
modelled with truncated `Nat` subtraction, which agrees with the code for
caches written in the past. -/
def cacheFresh (now : Nat) (r : FileRecord) : Bool :=
  match r.cached_metadata, r.metadata_cached_at with
  | some _, some t => decide (now - t < 3600)
  | _, _ => false

/-- `get_s3_metadata` (list_files.py lines 174-209): use the cached
snapshot when permitted and fresh, otherwise `head_object`; any failure
(object absent) yields `None`.  The fire-and-forget cache write-back
(`update_file_metadata_cache`) does not affect the response and is not
part of the returned value. -/
def getS3Metadata (use_cache : Bool) (now : Nat) (s3 : List S3Object)
    (r : FileRecord) : Option FileObj :=
  if use_cache && cacheFresh now r then
    r.cached_metadata
  else
    match s3Head s3 r.s3_key with
    | some obj => some (v2FreshObj obj r.s3_key)
    | none => none

/-- A pagination query parameter as received: absent, a non-integer
string (`int()` raises `ValueError`), or an integer. -/
inductive Param where
  | missing
  | invalid
  | int (i : Int)
deriving DecidableEq

/-- `int(request.args.get(name, default))`: `none` models the
`ValueError` raised on a non-integer string. -/
def Param.toInt (d : Int) : Param → Option Int
  | .missing => some d
  | .invalid => none
  | .int i => some i

/-- The page payload of a successful listing response. -/
structure Payload where
  files : List FileObj
  total : Nat
  total_pages : Nat
  page : Int
  per_page : Int
  next_cursor : Option String
deriving DecidableEq

/-- Result of a listing request: HTTP status, error message if any,
payload if any, and whether any metadata-store or object-store call was
issued before returning. -/
structure ListResult where
  status : Nat
  error : Option String := none
  payload : Option Payload := none
  storeTouched : Bool
deriving DecidableEq

/-- The file items of a listing response (empty for an error
response). -/
def ListResult.filesOf (res : ListResult) : List FileObj :=
  (res.payload.map Payload.files).getD []

/-- The base record set of `list_files_v2`: records matching the count /
candidate filter, in the store's internal order. -/
def v2Filter (pfx1 : String) (db : List FileRecord) : List FileRecord :=
  db.filter (completeWithPfx pfx1)

/-- The filtered records sorted by `sort("last_modified", -1)` (stable in
the store's internal order for a fixed snapshot). -/
def v2Sorted (pfx1 : String) (db : List FileRecord) : List FileRecord :=
  stableSort lmDescLe (v2Filter pfx1 db)

/-- Hex-string validity of a BSON ObjectId literal: `ObjectId(cursor)`
raises unless the string is 24 hex characters. -/
def isValidObjectId (s : String) : Bool :=
  s.length == 24 && s.toList.all (fun c =>
    c.isDigit || ('a' ≤ c && c ≤ 'f') || ('A' ≤ c && c ≤ 'F'))

/-- Records matching the timestamp-cursor query
`last_modified: {$lt: ts}` (a typed comparison: records lacking the
field do not match). -/
def tsCursorMatch (ts : String) (r : FileRecord) : Bool :=
  match lmKey r with
  | some v => strLt v ts
  | none => false

/-- Offset-mode candidate fetch of `list_files_v2` (lines 152-155):
`find(filter).sort("last_modified", -1).skip((page-1)*per_page)
.limit(per_page)`. -/
def v2Candidates (pfx1 : String) (db : List FileRecord)
    (page per_page : Int) : List FileRecord :=
  ((v2Sorted pfx1 db).drop ((page - 1) * per_page).toNat).take per_page.toNat

/-- Backfill candidate fetch (lines 222-227): skip additionally the
number of items already obtained and fetch the shortfall. -/
def v2ExtraCandidates (pfx1 : String) (db : List FileRecord)
    (page per_page : Int) (got : Nat) : List FileRecord :=
  ((v2Sorted pfx1 db).drop (((page - 1) * per_page).toNat + got)).take
    (per_page.toNat - got)

/-- Offset-mode page assembly of `list_files_v2` (lines 211-234):
reconcile each candidate, drop failures, and backfill once when the page
fell short and further records exist. -/
def v2Files (pfx1 : String) (db : List FileRecord) (s3 : List S3Object)
    (use_cache : Bool) (now : Nat) (page per_page : Int) : List FileObj :=
  let files0 := (v2Candidates pfx1 db page per_page).filterMap
    (getS3Metadata use_cache now s3)
  if files0.length < per_page.toNat &&
      page * per_page < ((v2Filter pfx1 db).length : Int) then
    files0 ++ (v2ExtraCandidates pfx1 db page per_page files0.length).filterMap
      (getS3Metadata use_cache now s3)
  else files0

/-- Next-cursor generation (lines 237-242): present when a full page was
returned, carrying the last item's `last_modified`. -/
def v2NextCursor (files : List FileObj) (per_page : Int) : Option String :=
  if files ≠ [] ∧ (files.length : Int) = per_page then
    match (files.getLast?).bind (fun f => f.last_modified) with
    | some lm => some ("ts:" ++ lm)
    | none => none
  else none

/-- A 200 response of `list_files_v2`. -/
def v2Ok (files : List FileObj) (total total_pages : Nat)
    (page per_page : Int) : ListResult :=
  { status := 200
    payload := some
      { files := files, total := total, total_pages := total_pages
        page := page, per_page := per_page
        next_cursor := v2NextCursor files per_page }
    storeTouched := true }

/-- `list_files_v2` (list_files.py lines 75-258), with the request
decomposed into its inputs: the `files` collection snapshot, the bucket
contents, the requester's email, the `page` / `per_page` / `cursor` /
`use_cache` query parameters and the current time.  Only the response is
returned; `storeTouched` records whether any store was queried. -/
def list_files_v2 (db : List FileRecord) (s3 : List S3Object)
    (email : String) (pageP perPageP : Param) (cursor : Option String)
    (use_cache : Bool) (now : Nat) : ListResult :=
  let pfx1 := derivePfx email ++ "/"
  match pageP.toInt 1, perPageP.toInt 50 with
  | some page, some per_page =>
    if page < 1 || per_page < 1 then
      { status := 400
        error := some "Invalid pagination parameters. 'page' and 'per_page' must be positive integers."
        storeTouched := false }
    else
      let total := (v2Filter pfx1 db).length
      let total_pages := (total + per_page.toNat - 1) / per_page.toNat
      match cursor with
      | some c =>
        if strIsPfx "ts:" c then
          let candidates := (stableSort lmDescLe
            ((v2Filter pfx1 db).filter (tsCursorMatch (c.drop 3)))).take per_page.toNat
          let files := candidates.filterMap (getS3Metadata use_cache now s3)
          v2Ok files total total_pages page per_page
        else if isValidObjectId c then
          let candidates := (stableSort lmDescLe
            ((v2Filter pfx1 db).filter (fun r => strLt r.oid c))).take per_page.toNat
          let files := candidates.filterMap (getS3Metadata use_cache now s3)
          v2Ok files total total_pages page per_page
        else
          { status := 400, error := some "Invalid cursor format", storeTouched := true }
      | none =>
        v2Ok (v2Files pfx1 db s3 use_cache now page per_page) total total_pages page per_page
  | _, _ =>
    { status := 400
      error := some "Invalid pagination parameters. 'page' and 'per_page' must be positive integers."
      storeTouched := false }

/-- The filter `{'s3_key': k, 'user': uid}` used by the lifecycle
endpoints. -/
def recMatch (k uid : String) (r : FileRecord) : Bool :=
  r.s3_key == k && r.user == uid

/-- `find_one({'s3_key': k, 'user': uid})`: the first record of the
snapshot matching key and owner. -/
def findRecord (db : List FileRecord) (k uid : String) : Option FileRecord :=
  db.find? (recMatch k uid)

/-- `delete_one({'s3_key': k, 'user': uid})`: remove the first matching
record; `none` models `deleted_count == 0`. -/
def deleteOneRecord (k uid : String) : List FileRecord → Option (List FileRecord)
  | [] => none
  | r :: rest =>
    if recMatch k uid r then some rest
    else (deleteOneRecord k uid rest).map (fun l => r :: l)

/-- Result of the delete endpoint: status, message, both stores after the
request, and the keys for which an S3 `delete_object` was issued. -/
structure DeleteResult where
  status : Nat
  message : String
  db : List FileRecord
  s3 : List S3Object
  s3Deletes : List String
deriving DecidableEq

/-- `delete_file` (app.py lines 893-955).  `s3DeleteOk` injects the
outcome of the S3 `delete_object` call (an exception there returns 500).
The `find_one` lookup is only logged: its 404 return is commented out in
the source, and the key used afterwards equals the request key whether or
not a record was found. -/
def delete_file (db : List FileRecord) (s3 : List S3Object) (uid : String)
    (s3_key : Option String) (s3DeleteOk : Bool) : DeleteResult :=
  match s3_key with
  | none =>
    { status := 400, message := "s3_key is required.", db := db, s3 := s3, s3Deletes := [] }
  | some k =>
    if k == "" then
      { status := 400, message := "s3_key is required.", db := db, s3 := s3, s3Deletes := [] }
    else if !s3DeleteOk then
      { status := 500, message := "Failed to delete file from storage."
        db := db, s3 := s3, s3Deletes := [k] }
    else
      let s3' := s3.filter (fun o => o.key != k)
      match deleteOneRecord k uid db with
      | none =>
        { status := 200, message := "File metadata not found in db."
          db := db, s3 := s3', s3Deletes := [k] }
      | some db' =>
        { status := 200, message := "File deleted successfully."
          db := db', s3 := s3', s3Deletes := [k] }

/-- Result of the confirm endpoint. -/
structure ConfirmResult where
  status : Nat
  message : String
  db : List FileRecord
deriving DecidableEq

/-- `update_one({'s3_key': k, 'user': uid}, {'$set': {'upload_complete':
'complete'}})`: set the first matching record's status; `none` models
`matched_count == 0`.  The filter has no condition on the record's
current `upload_complete`. -/
def setFirstComplete (k uid : String) : List FileRecord → Option (List FileRecord)
  | [] => none
  | r :: rest =>
    if recMatch k uid r then
      some ({ r with upload_complete := "complete" } :: rest)
    else (setFirstComplete k uid rest).map (fun l => r :: l)

/-- `confirm_upload` (app.py lines 790-808). -/
def confirm_upload (db : List FileRecord) (uid : String)
    (s3_key : Option String) : ConfirmResult :=
  match s3_key with
  | none => { status := 400, message := "s3_key is required", db := db }
  | some k =>
    if k == "" then { status := 400, message := "s3_key is required", db := db }
    else
      match setFirstComplete k uid db with
      | none => { status := 404, message := "File not found", db := db }
      | some db' => { status := 200, message := "Upload confirmed successfully", db := db' }

/-- Result of the rename endpoint. -/
structure RenameResult where
  status : Nat
  message : String
  db : List FileRecord
  s3 : List S3Object
deriving DecidableEq

/-- `'/'.join(current_key.split('/')[:-1] + [new_filename])` (app.py
line 988). -/
def newKeyFor (current_key new_filename : String) : String :=
  String.intercalate "/" ((strSplit current_key "/").dropLast ++ [new_filename])

/-- `update_one({'_id': oid}, {'$set': {'s3_key': nk, 'filename': nf}})`:
rewrite the first record with the given `_id`. -/
def setKeyFilenameByOid (oid nk nf : String) : List FileRecord → List FileRecord
  | [] => []
  | r :: rest =>
    if r.oid == oid then { r with s3_key := nk, filename := nf } :: rest
    else r :: setKeyFilenameByOid oid nk nf rest

/-- `rename_file` (app.py lines 957-1060): find the record, compute the
destination key, reject with 409 if an object already exists there, copy
the object, delete the original, then update the record.  A copy of an
absent source raises (500); `modified_count == 0` on the record update
returns 500 without reverting the S3 state (the revert only runs in the
exception branch of the source). -/
def rename_file (db : List FileRecord) (s3 : List S3Object) (uid : String)
    (s3_key new_filename : Option String) : RenameResult :=
  match s3_key, new_filename with
  | some k, some nf =>
    if k == "" || nf == "" then
      { status := 400, message := "s3_key and new_filename are required."
        db := db, s3 := s3 }
    else
      match findRecord db k uid with
      | none =>
        { status := 404, message := "File not found or unauthorized.", db := db, s3 := s3 }
      | some doc =>
        let ck := doc.s3_key
        let nk := newKeyFor ck nf
        match s3Head s3 nk with
        | some _ =>
          { status := 409, message := "A file with the new filename already exists."
            db := db, s3 := s3 }
        | none =>
          match s3Head s3 ck with
          | none =>
            { status := 500, message := "Failed to copy file in storage.", db := db, s3 := s3 }
          | some src =>
            let s3' := (s3 ++ [{ src with key := nk }]).filter (fun o => o.key != ck)
            let db' := setKeyFilenameByOid doc.oid nk nf db
            if db' == db then
              { status := 500, message := "Failed to update file metadata.", db := db, s3 := s3' }
            else
              { status := 200, message := "File renamed successfully.", db := db', s3 := s3' }
  | _, _ =>
    { status := 400, message := "s3_key and new_filename are required."
      db := db, s3 := s3 }

/-- Result of the single-item details endpoint. -/
structure DetailsResult where
  status : Nat
  error : Option String
  body : Option FileObj
deriving DecidableEq

/-- The details object built from a successful `head_object`
(file_details.py lines 84-97); this endpoint variant nests
`last_modified` inside `metadata`. -/
def detailsObj (obj : S3Object) (key : String) (inDb : Bool) : FileObj :=
  { file_name := lastSegment key
    simple_url := bucketUrl ++ key
    metadata := [("tier", strToLower (obj.storageClass.getD "standard")),
                 ("size", toString obj.size),
                 ("content_type", obj.contentType.getD "application/octet-stream"),
                 ("last_modified", isoOfTime obj.lastModified)]
    upload_complete := "complete"
    last_modified := none
    id := strReplace key "/" "-"
    s3_key := key
    exists_in_db := some inDb }

/-- `get_file_details` (file_details.py lines 15-122): resolve the
identifier to a storage key (key containing `/`, application `id` field,
BSON `_id`, or a key constructed from the user's namespace), return the
fresh cached snapshot when one exists, otherwise `head_object` — with a
404 answer when the object is absent. -/
def get_file_details (db : List FileRecord) (s3 : List S3Object)
    (email uid : String) (file_identifier : String) (now : Nat) : DetailsResult :=
  let pfx := derivePfx email
  let resolved : String × Option FileRecord :=
    if strContainsChar file_identifier '/' then
      (file_identifier, findRecord db file_identifier uid)
    else
      match db.find? (fun r => r.id == file_identifier && r.user == uid) with
      | some r => (r.s3_key, some r)
      | none =>
        if isValidObjectId file_identifier then
          match db.find? (fun r => r.oid == file_identifier && r.user == uid) with
          | some r => (r.s3_key, some r)
          | none => (pfx ++ "/" ++ file_identifier, none)
        else (pfx ++ "/" ++ file_identifier, none)
  let s3_key := resolved.1
  let file_record := resolved.2
  let fromS3 : DetailsResult :=
    match s3Head s3 s3_key with
    | some obj =>
      { status := 200, error := none, body := some (detailsObj obj s3_key file_record.isSome) }
    | none =>
      { status := 404, error := some "File not found in S3", body := none }
  match file_record with
  | some r => if cacheFresh now r then { status := 200, error := none, body := r.cached_metadata } else fromS3
  | none => fromS3

/-- An entry of the `cache` collection used by `list_files_optimized`. -/
structure CacheEntry where
  key : String
  dataPayload : Payload
  timestamp : Nat
deriving DecidableEq

/-- Ascending key order: the order `list_objects_v2` returns keys in. -/
def s3KeyAsc (a b : S3Object) : Bool := strLe a.key b.key

/-- The bucket objects matching a `list_objects_v2` request (prefix and
optional `StartAfter`), in ascending key order, before the `MaxKeys`
cut. -/
def s3Matching (s3 : List S3Object) (pfx : String)
    (startAfter : Option String) : List S3Object :=
  (stableSort s3KeyAsc s3).filter (fun o =>
    strIsPfx pfx o.key &&
    (match startAfter with | none => true | some a => strLt a o.key))

/-- `list_objects_v2`: at most `min(maxKeys, 1000)` matching objects
(S3 caps every response at 1000 keys). -/
def listObjectsV2 (s3 : List S3Object) (pfx : String) (maxKeys : Nat)
    (startAfter : Option String) : List S3Object :=
  (s3Matching s3 pfx startAfter).take (min maxKeys 1000)

/-- The database filter of `list_files_optimized`:
`{user: uid, upload_complete: "complete", s3_key: {$regex: ^pfx}}`
(list_files_optimized.py lines 90-94 and 123-127); unlike
`list_files_v2` this one does constrain the `user` field. -/
def optDbFilter (pfx uid : String) (r : FileRecord) : Bool :=
  r.user == uid && completeWithPfx pfx r

/-- The recently-uploaded query (list_files_optimized.py lines 203-212):
owner + complete + prefix, and created within the last five minutes or
lacking a `last_modified` field. -/
def recentFilter (pfx uid : String) (now : Nat) (r : FileRecord) : Bool :=
  optDbFilter pfx uid r && (decide (now - 300 ≤ r.created_at) || r.last_modified.isNone)

/-- Descending `sort("created_at", -1)` comparator. -/
def createdDescLe (a b : FileRecord) : Bool := decide (b.created_at ≤ a.created_at)

/-- The response item built from one object of the S3 page
(list_files_optimized.py lines 156-183), merging additive record
metadata under S3 precedence. -/
def optS3Obj (db : List FileRecord) (uid : String) (obj : S3Object) : FileObj :=
  let file_record := db.find? (recMatch obj.key uid)
  let base := [("tier", strToLower (obj.storageClass.getD "standard")),
               ("size", toString obj.size)]
  let extra :=
    match file_record with
    | some r =>
      match r.metadata with
      | some md => md.filter (fun kv => (base.lookup kv.1).isNone)
      | none => []
    | none => []
  { file_name := lastSegment obj.key
    simple_url := bucketUrl ++ obj.key
    metadata := base ++ extra
    upload_complete := "complete"
    last_modified := some (isoOfTime obj.lastModified)
    id := strReplace obj.key "/" "-"
    s3_key := obj.key
    exists_in_db := some file_record.isSome }

/-- The response item built for a recently-uploaded record
(list_files_optimized.py lines 222-256): `head_object` when possible,
otherwise a fallback from the record itself. -/
def optRecentObj (s3 : List S3Object) (r : FileRecord) : FileObj :=
  match s3Head s3 r.s3_key with
  | some obj =>
    { file_name := lastSegment r.s3_key
      simple_url := bucketUrl ++ r.s3_key
      metadata := [("tier", strToLower (obj.storageClass.getD "standard")),
                   ("size", toString obj.size),
                   ("content_type", obj.contentType.getD "application/octet-stream")]
      upload_complete := "complete"
      last_modified := some (isoOfTime obj.lastModified)
      id := strReplace r.s3_key "/" "-"
      s3_key := r.s3_key
      exists_in_db := some true }
  | none =>
    { file_name := lastSegment r.s3_key
      simple_url := bucketUrl ++ r.s3_key
      metadata := r.metadata.getD [("tier", "standard"), ("size", "0")]
      upload_complete := "complete"
      last_modified := some (isoOfTime r.created_at)
      id := strReplace r.s3_key "/" "-"
      s3_key := r.s3_key
      exists_in_db := some true
      recently_uploaded := some true }

/-- Python's final `all_files.sort(key=..., reverse=True)` comparator:
descending on the item's `last_modified` string, `''` when absent. -/
def objLmDescLe (a b : FileObj) : Bool :=
  strLe (b.last_modified.getD "") (a.last_modified.getD "")

/-- `list_files_optimized` (list_files_optimized.py lines 16-301).
Inputs as for `list_files_v2` plus the `cache` collection and the
requester's user id.  The continuation token is opaque in S3; it is
modelled as the tagged last key of the returned page.  Response-cache
write-back does not affect the response and is not part of the returned
value. -/
def list_files_optimized (db : List FileRecord) (cache : List CacheEntry)
    (s3 : List S3Object) (email uid : String) (pageP perPageP : Param)
    (cursor : Option String) (use_cache : Bool) (now : Nat) : ListResult :=
  let pfx := derivePfx email ++ "/"
  match pageP.toInt 1, perPageP.toInt 50 with
  | some page, some per_page =>
    if page < 1 || per_page < 1 || per_page > 1000 then
      { status := 400
        error := some "Invalid pagination parameters. 'page' and 'per_page' must be positive integers."
        storeTouched := false }
    else
      let pp := per_page.toNat
      let cache_key := "files_list_" ++ uid ++ "_" ++ toString page ++ "_" ++ toString per_page
      let cacheHit : Option Payload :=
        if use_cache then
          match cache.find? (fun e => e.key == cache_key) with
          | some e => if now - e.timestamp < 300 then some e.dataPayload else none
          | none => none
        else none
      match cacheHit with
      | some data => { status := 200, payload := some data, storeTouched := true }
      | none =>
        let dbTotal := (db.filter (optDbFilter pfx uid)).length
        let startAfterRes : Option (Option String) :=
          match cursor with
          | some c => some (some c)
          | none =>
            if page > 1 then
              let allKeys := listObjectsV2 s3 pfx ((page - 1) * per_page).toNat none
              match allKeys.getLast? with
              | some lastObj => some (some lastObj.key)
              | none => if dbTotal == 0 then none else some none
            else some none
        match startAfterRes with
        | none =>
          { status := 200
            payload := some
              { files := [], total := 0, total_pages := 0
                page := page, per_page := per_page, next_cursor := none }
            storeTouched := true }
        | some start_after =>
          let s3Total := min (s3Matching s3 pfx none).length 1000
          let total := max s3Total dbTotal
          let total_pages := if total > 0 then (total + pp - 1) / pp else 0
          let pageObjs := listObjectsV2 s3 pfx pp start_after
          let s3_files := pageObjs.map (optS3Obj db uid)
          let truncated := (s3Matching s3 pfx start_after).length > min pp 1000
          let next_cursor :=
            if !s3_files.isEmpty && truncated then
              (pageObjs.getLast?).map (fun o => "ct:" ++ o.key)
            else none
          let recent :=
            if page == 1 || cursor.isNone then
              ((stableSort createdDescLe (db.filter (recentFilter pfx uid now))).take pp).foldl
                (fun acc r =>
                  if s3_files.any (fun f => f.s3_key == r.s3_key) then acc
                  else acc ++ [optRecentObj s3 r]) []
            else []
          let files := (stableSort objLmDescLe (s3_files ++ recent)).take pp
          { status := 200
            payload := some
              { files := files, total := total, total_pages := total_pages
                page := page, per_page := per_page, next_cursor := next_cursor }
            storeTouched := true }
  | _, _ =>
    { status := 400
      error := some "Invalid pagination parameters. 'page' and 'per_page' must be positive integers."
      storeTouched := false }

/-!  Concrete store snapshots used by counterexamples and witnesses.
All user emails below derive the namespace "u-x" (from "u@x.com") or
"alice-gmail" (from both "alice@gmail.com" and
"alice@gmail.comedy.example" — `split('.com')[0]` truncates both at the
first ".com" occurrence). -/

/-- A record owned by user `bob-id` inside the namespace that
"alice@gmail.com" derives. -/
def bobRec : FileRecord :=
  { oid := "bbbbbbbbbbbbbbbbbbbbbbbb", id := "alice-gmail-secret.txt"
    s3_key := "alice-gmail/secret.txt", user := "bob-id"
    filename := "secret.txt", upload_complete := "complete"
    last_modified := some 100 }

/-- The object behind `bobRec`. -/
def bobObj : S3Object := { key := "alice-gmail/secret.txt", size := 7, lastModified := 100 }

/-- First of two records tied on `last_modified`. -/
def tieA : FileRecord :=
  { oid := "aaaaaaaaaaaaaaaaaaaaaaa2", id := "u-x-a.txt"
    s3_key := "u-x/a.txt", user := "u1", filename := "a.txt"
    upload_complete := "complete", last_modified := some 100 }

/-- Second of two records tied on `last_modified`; its `_id` precedes
`tieA`'s. -/
def tieB : FileRecord :=
  { oid := "aaaaaaaaaaaaaaaaaaaaaaa1", id := "u-x-b.txt"
    s3_key := "u-x/b.txt", user := "u1", filename := "b.txt"
    upload_complete := "complete", last_modified := some 100 }

/-- Objects behind the tied records. -/
def tieObjs : List S3Object :=
  [{ key := "u-x/a.txt", size := 1, lastModified := 100 },
   { key := "u-x/b.txt", size := 2, lastModified := 100 }]

/-- A record still in `pending` state whose object is already in the
bucket (uploaded through the presigned URL but never confirmed). -/
def pendRec : FileRecord :=
  { oid := "dddddddddddddddddddddddd", id := "u-x-p.txt"
    s3_key := "u-x/p.txt", user := "u1", filename := "p.txt"
    upload_complete := "pending", last_modified := some 50 }

/-- The object behind `pendRec`. -/
def pendObj : S3Object := { key := "u-x/p.txt", size := 3, lastModified := 50 }

/-- The single complete record of the `c5` snapshot. -/
def c5Rec : FileRecord :=
  { oid := "eeeeeeeeeeeeeeeeeeeeeeee", id := "u-x-a.txt"
    s3_key := "u-x/a.txt", user := "u1", filename := "a.txt"
    upload_complete := "complete", last_modified := some 10 }

/-- Two objects under the user's namespace (one has no record). -/
def c5Objs : List S3Object :=
  [{ key := "u-x/a.txt", size := 1, lastModified := 10 },
   { key := "u-x/b.txt", size := 2, lastModified := 20 }]

/-- A cached metadata snapshot for the key "u-x/gone.txt". -/
def cmC6 : FileObj :=
  { file_name := "gone.txt", simple_url := bucketUrl ++ "u-x/gone.txt"
    metadata := [("tier", "standard"), ("size", "3")]
    upload_complete := "complete", last_modified := some (isoOfTime 40)
    id := "u-x/gone.txt", s3_key := "u-x/gone.txt" }

/-- A dangling record (object gone) carrying a fresh cached snapshot. -/
def ghostRec : FileRecord :=
  { oid := "ffffffffffffffffffffffff", id := "u-x-gone.txt"
    s3_key := "u-x/gone.txt", user := "u1", filename := "gone.txt"
    upload_complete := "complete", last_modified := some 40
    cached_metadata := some cmC6, metadata_cached_at := some 1000 }

/-- A dangling record with no cached snapshot (witness input). -/
def bareGhostRec : FileRecord :=
  { oid := "ffffffffffffffffffffff00", id := "u-x-bare.txt"
    s3_key := "u-x/bare.txt", user := "u1", filename := "bare.txt"
    upload_complete := "complete", last_modified := some 41 }

/-- Scenario record with the oldest timestamp T1. -/
def scenRec1 : FileRecord :=
  { oid := "111111111111111111111111", id := "u-x-t1.txt"
    s3_key := "u-x/t1.txt", user := "u1", filename := "t1.txt"
    upload_complete := "complete", last_modified := some 100 }

/-- Scenario record with the middle timestamp T2. -/
def scenRec2 : FileRecord :=
  { oid := "222222222222222222222222", id := "u-x-t2.txt"
    s3_key := "u-x/t2.txt", user := "u1", filename := "t2.txt"
    upload_complete := "complete", last_modified := some 200 }

/-- Scenario record with the newest timestamp T3. -/
def scenRec3 : FileRecord :=
  { oid := "333333333333333333333333", id := "u-x-t3.txt"
    s3_key := "u-x/t3.txt", user := "u1", filename := "t3.txt"
    upload_complete := "complete", last_modified := some 300 }

/-- The three-record scenario snapshot. -/
def scenDb : List FileRecord := [scenRec1, scenRec2, scenRec3]

/-- The objects behind the scenario records. -/
def scenObjs : List S3Object :=
  [{ key := "u-x/t1.txt", size := 1, lastModified := 100 },
   { key := "u-x/t2.txt", size := 2, lastModified := 200 },
   { key := "u-x/t3.txt", size := 3, lastModified := 300 }]

/-- An already-confirmed (complete) record. -/
def confRec : FileRecord :=
  { oid := "cccccccccccccccccccccccc", id := "u-x-f.txt"
    s3_key := "u-x/f.txt", user := "u1", filename := "f.txt"
    upload_complete := "complete" }

/-- A pending record awaiting confirmation. -/
def pendConfRec : FileRecord :=
  { oid := "cccccccccccccccccccccc00", id := "u-x-g.txt"
    s3_key := "u-x/g.txt", user := "u1", filename := "g.txt"
    upload_complete := "pending" }

/-- The record renamed in the C7 witness. -/
def renRec : FileRecord :=
  { oid := "abcdefabcdefabcdefabcdef", id := "u-x-old.txt"
    s3_key := "u-x/old.txt", user := "u1", filename := "old.txt"
    upload_complete := "complete", last_modified := some 60 }

/-- The object behind `renRec`. -/
def renObj : S3Object := { key := "u-x/old.txt", size := 9, lastModified := 60 }

/-- An object already occupying the rename destination key. -/
def renObjNew : S3Object := { key := "u-x/new.txt", size := 4, lastModified := 61 }

theorem insertLe_perm (le : α → α → Bool) (a : α) (l : List α) :
    (insertLe le a l).Perm (a :: l) := by
  induction l with
  | nil => simp [insertLe]
  | cons b t ih =>
    simp only [insertLe]
    split
    · exact List.Perm.refl _
    · exact (List.Perm.cons b ih).trans (List.Perm.swap a b t)

theorem stableSort_perm (le : α → α → Bool) (l : List α) :
    (stableSort le l).Perm l := by
  induction l with
  | nil => simp [stableSort]
  | cons a t ih =>
    exact (insertLe_perm le a (stableSort le t)).trans (List.Perm.cons a ih)

theorem insertLe_pairwise (le : α → α → Bool)
    (htot : ∀ a b, le a b = true ∨ le b a = true)
    (htrans : ∀ a b c, le a b = true → le b c = true → le a c = true)
    (a : α) (l : List α)
    (hl : l.Pairwise (fun x y => le x y = true)) :
    (insertLe le a l).Pairwise (fun x y => le x y = true) := by
  induction l with
  | nil => simp [insertLe]
  | cons b t ih =>
    rcases List.pairwise_cons.mp hl with ⟨hb, ht⟩
    simp only [insertLe]
    split
    · rename_i hab
      refine List.pairwise_cons.mpr ⟨?_, hl⟩
      intro x hx
      rcases List.mem_cons.mp hx with hx | hx
      · rw [hx]
        exact hab
      · exact htrans a b x hab (hb x hx)
    · rename_i hab
      refine List.pairwise_cons.mpr ⟨?_, ih ht⟩
      intro x hx
      have hperm := insertLe_perm le a t
      have hx2 := List.mem_cons.mp (hperm.mem_iff.mp hx)
      rcases hx2 with hx2 | hx2
      · rw [hx2]
        rcases htot a b with h | h
        · exact absurd h (by simpa using hab)
        · exact h
      · exact hb x hx2

theorem stableSort_pairwise (le : α → α → Bool)
    (htot : ∀ a b, le a b = true ∨ le b a = true)
    (htrans : ∀ a b c, le a b = true → le b c = true → le a c = true)
    (l : List α) :
    (stableSort le l).Pairwise (fun x y => le x y = true) := by
  induction l with
  | nil => simp [stableSort]
  | cons a t ih =>
    exact insertLe_pairwise le htot htrans a (stableSort le t) ih

theorem listLe_total : ∀ (a b : List Char), listLe a b = true ∨ listLe b a = true
  | [], _ => Or.inl rfl
  | _ :: _, [] => Or.inr rfl
  | a :: as, b :: bs => by
    simp only [listLe]
    rcases Nat.lt_trichotomy a.toNat b.toNat with h | h | h
    · left
      rw [if_pos h]
    · have hab : ¬(a.toNat < b.toNat) := by omega
      have hba : ¬(b.toNat < a.toNat) := by omega
      rw [if_neg hab, if_neg hba, if_neg hba, if_neg hab]
      exact listLe_total as bs
    · right
      rw [if_pos h]

theorem listLe_trans : ∀ (a b c : List Char),
    listLe a b = true → listLe b c = true → listLe a c = true
  | [], _, _, _, _ => rfl
  | _ :: _, [], _, h, _ => by simp [listLe] at h
  | _ :: _, _ :: _, [], _, h => by simp [listLe] at h
  | a :: as, b :: bs, c :: cs, h1, h2 => by
    simp only [listLe] at h1 h2 ⊢
    split at h1
    · rename_i hab
      split at h2
      · rename_i hbc
        rw [if_pos (by omega)]
      · split at h2
        · exact absurd h2 (by decide)
        · rename_i hcb hbc
          rw [if_pos (by omega)]
    · split at h1
      · exact absurd h1 (by decide)
      · rename_i hab hba
        split at h2
        · rename_i hbc
          rw [if_pos (by omega)]
        · split at h2
          · exact absurd h2 (by decide)
          · rename_i hcb hbc
            rw [if_neg (by omega), if_neg (by omega)]
            exact listLe_trans as bs cs h1 h2

theorem strLe_total (a b : String) : strLe a b = true ∨ strLe b a = true :=
  listLe_total a.toList b.toList

theorem strLe_trans (a b c : String) :
    strLe a b = true → strLe b c = true → strLe a c = true :=
  listLe_trans a.toList b.toList c.toList

theorem optStrLe_total (a b : Option String) :
    optStrLe a b = true ∨ optStrLe b a = true := by
  cases a with
  | none => exact Or.inl rfl
  | some x =>
    cases b with
    | none => exact Or.inr rfl
    | some y => exact strLe_total x y

theorem optStrLe_trans (a b c : Option String) :
    optStrLe a b = true → optStrLe b c = true → optStrLe a c = true := by
  cases a with
  | none => intro _ _; rfl
  | some x =>
    cases b with
    | none => intro h _; exact absurd h (by simp [optStrLe])
    | some y =>
      cases c with
      | none => intro _ h; exact absurd h (by simp [optStrLe])
      | some z => exact strLe_trans x y z

theorem lmDescLe_total (a b : FileRecord) :
    lmDescLe a b = true ∨ lmDescLe b a = true := by
  rcases optStrLe_total (lmKey b) (lmKey a) with h | h
  · exact Or.inl h
  · exact Or.inr h

theorem lmDescLe_trans (a b c : FileRecord) :
    lmDescLe a b = true → lmDescLe b c = true → lmDescLe a c = true := by
  intro h1 h2
  exact optStrLe_trans (lmKey c) (lmKey b) (lmKey a) h2 h1

theorem recMatch_iff {k uid : String} {r : FileRecord} :
    recMatch k uid r = true ↔ r.s3_key = k ∧ r.user = uid := by
  simp [recMatch]

theorem recMatch_false_iff {k uid : String} {r : FileRecord} :
    recMatch k uid r = false ↔ ¬(r.s3_key = k ∧ r.user = uid) := by
  rw [← Bool.not_eq_true, recMatch_iff]

theorem filterMap_length_of_isSome {g : α → Option β} :
    ∀ (l : List α), (∀ x ∈ l, (g x).isSome = true) →
      (l.filterMap g).length = l.length
  | [], _ => rfl
  | x :: t, h => by
    have hx := h x (List.mem_cons_self x t)
    rcases Option.isSome_iff_exists.mp hx with ⟨y, hy⟩
    rw [List.filterMap_cons, hy]
    simp only [List.length_cons]
    rw [filterMap_length_of_isSome t (fun z hz => h z (List.mem_cons_of_mem x hz))]

theorem mem_of_mem_dropTake {l : List α} {n m : Nat} {x : α}
    (h : x ∈ (l.drop n).take m) : x ∈ l :=
  List.drop_subset n l (List.take_subset m _ h)

theorem mem_v2Sorted {pfx1 : String} {db : List FileRecord} {r : FileRecord}
    (h : r ∈ v2Sorted pfx1 db) :
    r ∈ db ∧ completeWithPfx pfx1 r = true := by
  have hm := (stableSort_perm lmDescLe (v2Filter pfx1 db)).mem_iff.mp h
  unfold v2Filter at hm
  exact ⟨(List.mem_filter.mp hm).1, (List.mem_filter.mp hm).2⟩

theorem v2Files_origin {pfx1 : String} {db : List FileRecord}
    {s3 : List S3Object} {uc : Bool} {now : Nat} {page pp : Int} {f : FileObj}
    (hf : f ∈ v2Files pfx1 db s3 uc now page pp) :
    ∃ r, r ∈ db ∧ completeWithPfx pfx1 r = true ∧
      getS3Metadata uc now s3 r = some f := by
  simp only [v2Files] at hf
  split at hf
  · rcases List.mem_append.mp hf with hmem | hmem
    · rcases List.mem_filterMap.mp hmem with ⟨r, hr, heq⟩
      have hs := mem_v2Sorted (mem_of_mem_dropTake (by simpa [v2Candidates] using hr))
      exact ⟨r, hs.1, hs.2, heq⟩
    · rcases List.mem_filterMap.mp hmem with ⟨r, hr, heq⟩
      have hs := mem_v2Sorted (mem_of_mem_dropTake (by simpa [v2ExtraCandidates] using hr))
      exact ⟨r, hs.1, hs.2, heq⟩
  · rcases List.mem_filterMap.mp hf with ⟨r, hr, heq⟩
    have hs := mem_v2Sorted (mem_of_mem_dropTake (by simpa [v2Candidates] using hr))
    exact ⟨r, hs.1, hs.2, heq⟩

theorem find?_eq_of_unique {p : α → Bool} {l : List α} {a : α}
    (ha : a ∈ l) (hpa : p a = true)
    (huniq : ∀ x ∈ l, p x = true → x = a) :
    l.find? p = some a := by
  induction l with
  | nil => cases ha
  | cons x t ih =>
    rcases List.mem_cons.mp ha with h | h
    · rw [← h]
      exact List.find?_cons_of_pos t hpa
    · by_cases hx : p x = true
      · have hxa := huniq x (List.mem_cons_self x t) hx
        rw [hxa] at hx ⊢
        exact List.find?_cons_of_pos t hx
      · rw [List.find?_cons_of_neg t hx]
        exact ih h (fun z hz hpz => huniq z (List.mem_cons_of_mem x hz) hpz)

theorem find?_append_none {p : α → Bool} {l1 : List α} (l2 : List α)
    (h : l1.find? p = none) : (l1 ++ l2).find? p = l2.find? p := by
  induction l1 with
  | nil => rfl
  | cons x t ih =>
    cases hpx : p x with
    | true =>
      rw [List.find?_cons_of_pos t hpx] at h
      cases h
    | false =>
      rw [List.find?_cons_of_neg t (by simp [hpx])] at h
      rw [List.cons_append, List.find?_cons_of_neg _ (by simp [hpx])]
      exact ih h

theorem find?_eq_none_of_all {p : α → Bool} {l : List α}
    (h : ∀ x ∈ l, p x = false) : l.find? p = none := by
  rw [List.find?_eq_none]
  intro x hx
  simp [h x hx]

theorem deleteOneRecord_eq_none_iff (k uid : String) :
    ∀ db : List FileRecord,
      deleteOneRecord k uid db = none ↔ ∀ r ∈ db, recMatch k uid r = false
  | [] => by simp [deleteOneRecord]
  | r :: t => by
    simp only [deleteOneRecord]
    by_cases h : recMatch k uid r = true
    · rw [if_pos h]
      simp [h]
    · have hf : recMatch k uid r = false := by simpa using h
      rw [if_neg h]
      simp only [Option.map_eq_none', deleteOneRecord_eq_none_iff k uid t,
        List.mem_cons]
      constructor
      · intro hall x hx
        rcases hx with hx | hx
        · rw [hx]
          exact hf
        · exact hall x hx
      · intro hall x hx
        exact hall x (Or.inr hx)

theorem deleteOneRecord_some_no_match (k uid : String) :
    ∀ (db db' : List FileRecord),
      deleteOneRecord k uid db = some db' →
      (db.filter (recMatch k uid)).length ≤ 1 →
      ∀ r ∈ db', recMatch k uid r = false
  | [], _, h, _ => by cases h
  | r0 :: t, db', h, hlen => by
    simp only [deleteOneRecord] at h
    by_cases h0 : recMatch k uid r0 = true
    · rw [if_pos h0] at h
      cases h
      intro r hr
      have hlen' : (t.filter (recMatch k uid)).length = 0 := by
        simp only [List.filter_cons, h0, if_pos, List.length_cons] at hlen
        omega
      have hnil : t.filter (recMatch k uid) = [] := List.length_eq_zero.mp hlen'
      by_contra hc
      have hrt : r ∈ t.filter (recMatch k uid) :=
        List.mem_filter.mpr ⟨hr, by simpa using hc⟩
      rw [hnil] at hrt
      cases hrt
    · rw [if_neg h0] at h
      cases hdel : deleteOneRecord k uid t with
      | none =>
        rw [hdel] at h
        cases h
      | some d' =>
        rw [hdel] at h
        simp only [Option.map_some'] at h
        cases h
        intro r hr
        rcases List.mem_cons.mp hr with hx | hx
        · rw [hx]
          simpa using h0
        · refine deleteOneRecord_some_no_match k uid t d' hdel ?_ r hx
          simpa [List.filter_cons, h0] using hlen

theorem setFirstComplete_eq_none_iff (k uid : String) :
    ∀ db : List FileRecord,
      setFirstComplete k uid db = none ↔ ∀ r ∈ db, recMatch k uid r = false
  | [] => by simp [setFirstComplete]
  | r :: t => by
    simp only [setFirstComplete]
    by_cases h : recMatch k uid r = true
    · rw [if_pos h]
      simp [h]
    · have hf : recMatch k uid r = false := by simpa using h
      rw [if_neg h]
      simp only [Option.map_eq_none', setFirstComplete_eq_none_iff k uid t,
        List.mem_cons]
      constructor
      · intro hall x hx
        rcases hx with hx | hx
        · rw [hx]
          exact hf
        · exact hall x hx
      · intro hall x hx
        exact hall x (Or.inr hx)

theorem setFirstComplete_append (k uid : String) (r : FileRecord)
    (l2 : List FileRecord) (hr : recMatch k uid r = true) :
    ∀ l1 : List FileRecord, (∀ x ∈ l1, recMatch k uid x = false) →
      setFirstComplete k uid (l1 ++ r :: l2) =
        some (l1 ++ { r with upload_complete := "complete" } :: l2)
  | [], _ => by
    simp only [List.nil_append, setFirstComplete]
    rw [if_pos hr]
  | x :: t, h1 => by
    have hx : recMatch k uid x = false := h1 x (List.mem_cons_self x t)
    simp only [List.cons_append, setFirstComplete, List.append_eq]
    rw [if_neg (by simp [hx])]
    rw [setFirstComplete_append k uid r l2 hr t
      (fun z hz => h1 z (List.mem_cons_of_mem x hz))]
    rfl

theorem rename_db_lookup (nk nf uid : String) (doc : FileRecord)
    (hdu : doc.user = uid) (hne : doc.s3_key ≠ nk) :
    ∀ db : List FileRecord,
      findRecord db doc.s3_key uid = some doc →
      (db.filter (fun r => r.s3_key == doc.s3_key)).length ≤ 1 →
      (∀ r ∈ db, r.s3_key ≠ nk) →
      (∀ r ∈ db, r.oid = doc.oid → r = doc) →
      findRecord (setKeyFilenameByOid doc.oid nk nf db) nk uid =
        some { doc with s3_key := nk, filename := nf } ∧
      findRecord (setKeyFilenameByOid doc.oid nk nf db) doc.s3_key uid = none
  | [] => by
    intro h
    cases h
  | r0 :: t => by
    intro hfind hlen hnew hoid
    by_cases h0 : recMatch doc.s3_key uid r0 = true
    · have hr0 : r0 = doc := by
        unfold findRecord at hfind
        rw [List.find?_cons_of_pos t h0] at hfind
        exact Option.some.inj hfind
      have hsame : (r0.oid == doc.oid) = true := by
        rw [hr0]
        exact beq_self_eq_true _
      have hstep : setKeyFilenameByOid doc.oid nk nf (r0 :: t) =
          { r0 with s3_key := nk, filename := nf } :: t := by
        simp only [setKeyFilenameByOid]
        rw [if_pos hsame]
      have htnone : ∀ x ∈ t, recMatch doc.s3_key uid x = false := by
        intro x hx
        have hcount : (t.filter (fun r => r.s3_key == doc.s3_key)).length = 0 := by
          have hr0k : (r0.s3_key == doc.s3_key) = true := by
            rw [hr0]
            exact beq_self_eq_true _
          simp only [List.filter_cons, hr0k, if_pos, List.length_cons] at hlen
          omega
        have hnil := List.length_eq_zero.mp hcount
        rw [recMatch_false_iff]
        intro hc
        have : x ∈ t.filter (fun r => r.s3_key == doc.s3_key) :=
          List.mem_filter.mpr ⟨hx, by simp [hc.1]⟩
        rw [hnil] at this
        cases this
      constructor
      · rw [hstep, hr0]
        unfold findRecord
        exact List.find?_cons_of_pos t (recMatch_iff.mpr ⟨rfl, hdu⟩)
      · rw [hstep, hr0]
        unfold findRecord
        rw [List.find?_cons_of_neg t (fun hc => hne ((recMatch_iff.mp hc).1).symm)]
        exact find?_eq_none_of_all htnone
    · have hf0 : recMatch doc.s3_key uid r0 = false := by simpa using h0
      have hoid0 : (r0.oid == doc.oid) = false := by
        cases hv : (r0.oid == doc.oid) with
        | false => rfl
        | true =>
          exfalso
          have heq : r0.oid = doc.oid := beq_iff_eq.mp hv
          have hr0d := hoid r0 (List.mem_cons_self r0 t) heq
          rw [recMatch_false_iff] at hf0
          exact hf0 (by rw [hr0d]; exact ⟨rfl, hdu⟩)
      have hstep : setKeyFilenameByOid doc.oid nk nf (r0 :: t) =
          r0 :: setKeyFilenameByOid doc.oid nk nf t := by
        simp only [setKeyFilenameByOid]
        rw [if_neg (by simp [hoid0])]
      have hfind' : findRecord t doc.s3_key uid = some doc := by
        unfold findRecord at hfind ⊢
        rw [List.find?_cons_of_neg t (by simp [hf0])] at hfind
        exact hfind
      have hdocmem : doc ∈ t := by
        unfold findRecord at hfind'
        exact List.mem_of_find?_eq_some hfind'
      have hr0k : (r0.s3_key == doc.s3_key) = false := by
        by_contra hc
        have hkey : r0.s3_key = doc.s3_key := by
          have hb : (r0.s3_key == doc.s3_key) = true := by
            cases hv : (r0.s3_key == doc.s3_key)
            · exact absurd hv hc
            · rfl
          exact beq_iff_eq.mp hb
        have : 1 + (t.filter (fun r => r.s3_key == doc.s3_key)).length ≤ 1 := by
          simp only [List.filter_cons, beq_iff_eq, hkey, if_pos, List.length_cons] at hlen
          omega
        have hmem : doc ∈ t.filter (fun r => r.s3_key == doc.s3_key) :=
          List.mem_filter.mpr ⟨hdocmem, by simp⟩
        have : (t.filter (fun r => r.s3_key == doc.s3_key)).length = 0 := by omega
        rw [List.length_eq_zero.mp this] at hmem
        cases hmem
      have ih := rename_db_lookup nk nf uid doc hdu hne t hfind'
        (by simpa [List.filter_cons, hr0k] using hlen)
        (fun z hz => hnew z (List.mem_cons_of_mem r0 hz))
        (fun z hz hoz => hoid z (List.mem_cons_of_mem r0 hz) hoz)
      constructor
      · rw [hstep]
        unfold findRecord
        rw [List.find?_cons_of_neg _ (fun hc =>
          hnew r0 (List.mem_cons_self r0 t) (recMatch_iff.mp hc).1)]
        exact ih.1
      · rw [hstep]
        unfold findRecord
        rw [List.find?_cons_of_neg _ (by simp [hf0])]
        exact ih.2

theorem completeWithPfx_complete {pfx1 : String} {r : FileRecord}
    (h : completeWithPfx pfx1 r = true) : r.upload_complete = "complete" := by
  simp only [completeWithPfx, Bool.and_eq_true, beq_iff_eq] at h
  exact h.1

theorem list_files_v2_offset_eq (db : List FileRecord) (s3 : List S3Object)
    (email : String) (uc : Bool) (now : Nat) (page pp : Int)
    (hp : 1 ≤ page) (hpp : 1 ≤ pp) :
    list_files_v2 db s3 email (.int page) (.int pp) none uc now =
      v2Ok (v2Files (derivePfx email ++ "/") db s3 uc now page pp)
        (v2Filter (derivePfx email ++ "/") db).length
        (((v2Filter (derivePfx email ++ "/") db).length + pp.toNat - 1) / pp.toNat)
        page pp := by
  have h1 : ¬(page < 1) := by omega
  have h2 : ¬(pp < 1) := by omega
  simp [list_files_v2, Param.toInt, h1, h2]

theorem cursor_candidates_origin {pfx1 : String} {db : List FileRecord}
    {q : FileRecord → Bool} {pp : Nat} {r : FileRecord}
    (h : r ∈ (stableSort lmDescLe ((v2Filter pfx1 db).filter q)).take pp) :
    r ∈ db ∧ completeWithPfx pfx1 r = true := by
  have h1 := List.take_subset _ _ h
  have h2 := (stableSort_perm lmDescLe _).mem_iff.mp h1
  have h3 := (List.mem_filter.mp h2).1
  unfold v2Filter at h3
  exact ⟨(List.mem_filter.mp h3).1, (List.mem_filter.mp h3).2⟩

/-- C1 counterexample: user `bob-id` (authenticating with the distinct
email "alice@gmail.comedy.example") owns a record inside the key
namespace that "alice@gmail.com" derives, because `split('.com')[0]`
truncates both emails to the same prefix.  Alice's listing then counts
Bob's record in `total` and returns it among the candidates, so a record
owned by a different user contributes to both. -/
theorem c1_owner_scope_counterexample :
    derivePfx "alice@gmail.comedy.example" = derivePfx "alice@gmail.com" ∧
    "alice@gmail.comedy.example" ≠ "alice@gmail.com" ∧
    bobRec.user = "bob-id" ∧
    (list_files_v2 [bobRec] [bobObj] "alice@gmail.com" (.int 1) (.int 50)
      none false 0).payload.map (fun p => p.total) = some 1 ∧
    (list_files_v2 [bobRec] [bobObj] "alice@gmail.com" (.int 1) (.int 50)
      none false 0).filesOf.map (fun f => f.s3_key) = ["alice-gmail/secret.txt"] := by
  refine ⟨by decide, by decide, by decide, by decide, by decide⟩

/-- C1 amended: `CountTotal` and `FetchCandidates` constrain only
`upload_complete = "complete"` and the email-derived storage-key prefix;
the record's `user` (owner) field is not part of either query, so every
complete record under the colliding prefix contributes, whoever owns
it. -/
theorem c1_query_scope (db : List FileRecord) (s3 : List S3Object)
    (email : String) (uc : Bool) (now : Nat) (page pp : Int)
    (hp : 1 ≤ page) (hpp : 1 ≤ pp) :
    (list_files_v2 db s3 email (.int page) (.int pp) none uc now).payload.map
        (fun p => p.total) = some (v2Filter (derivePfx email ++ "/") db).length ∧
    ∀ f ∈ (list_files_v2 db s3 email (.int page) (.int pp) none uc now).filesOf,
      ∃ r, r ∈ db ∧ completeWithPfx (derivePfx email ++ "/") r = true ∧
        getS3Metadata uc now s3 r = some f := by
  rw [list_files_v2_offset_eq db s3 email uc now page pp hp hpp]
  constructor
  · rfl
  · intro f hf
    exact v2Files_origin (by simpa [v2Ok, ListResult.filesOf] using hf)

/-- Witness for the C1 amended theorem at a concrete snapshot. -/
theorem c1_query_scope_witness :
    (list_files_v2 [bobRec] [bobObj] "alice@gmail.com" (.int 1) (.int 50)
        none false 0).payload.map (fun p => p.total) =
      some (v2Filter (derivePfx "alice@gmail.com" ++ "/") [bobRec]).length :=
  (c1_query_scope [bobRec] [bobObj] "alice@gmail.com" false 0 1 50
    (by decide) (by decide)).1

/-- C2: a delete request for a key with no metadata record matching
(key, requesting user) still issues the S3 delete for the exact
client-supplied key and answers 200 — the not-found rejection is
commented out in the source, so deletion is not conditioned on owning a
record. -/
theorem c2_delete_without_record (db : List FileRecord) (s3 : List S3Object)
    (uid k : String) (hk : k ≠ "")
    (hnone : ∀ r ∈ db, ¬(r.s3_key = k ∧ r.user = uid)) :
    (delete_file db s3 uid (some k) true).status = 200 ∧
    (delete_file db s3 uid (some k) true).s3Deletes = [k] ∧
    (delete_file db s3 uid (some k) true).db = db := by
  have hkb : (k == "") = false := by simpa using hk
  have hdel : deleteOneRecord k uid db = none :=
    (deleteOneRecord_eq_none_iff k uid db).mpr
      (fun r hr => recMatch_false_iff.mpr (hnone r hr))
  simp [delete_file, hkb, hdel]

/-- Witness for C2 at a concrete snapshot (empty metadata store, object
present). -/
theorem c2_delete_without_record_witness :
    (delete_file [] [pendObj] "u1" (some "u-x/p.txt") true).status = 200 ∧
    (delete_file [] [pendObj] "u1" (some "u-x/p.txt") true).s3Deletes = ["u-x/p.txt"] ∧
    (delete_file [] [pendObj] "u1" (some "u-x/p.txt") true).db = [] :=
  c2_delete_without_record [] [pendObj] "u1" "u-x/p.txt" (by decide) (by simp)

/-- C9 counterexample: `list_files_v2` enforces no upper bound on
`per_page`; a request with `per_page = 1001` is served normally (status
200) and the stores are queried, where the claim demands a client error
with no store calls. -/
theorem c9_perpage_cap_counterexample :
    (1000 : Int) < 1001 ∧
    (list_files_v2 [bobRec] [bobObj] "alice@gmail.com" (.int 1) (.int 1001)
      none false 0).status = 200 ∧
    (list_files_v2 [bobRec] [bobObj] "alice@gmail.com" (.int 1) (.int 1001)
      none false 0).storeTouched = true := by
  refine ⟨by decide, by decide, by decide⟩

/-- C9 amended: non-positive or non-integer `page`/`per_page` yields a
400 client error from both listing variants before any store call; the
1000 cap on `per_page` exists only in `list_files_optimized` (also
enforced before any store call), while `list_files_v2` has no upper
bound. -/
theorem c9_validation (db : List FileRecord) (cache : List CacheEntry)
    (s3 : List S3Object) (email uid : String) (cursor : Option String)
    (uc : Bool) (now : Nat) (page per_page : Int) (pageP perPageP : Param) :
    ((page < 1 ∨ per_page < 1) →
      (list_files_v2 db s3 email (.int page) (.int per_page) cursor uc now).status = 400 ∧
      (list_files_v2 db s3 email (.int page) (.int per_page) cursor uc now).storeTouched = false ∧
      (list_files_optimized db cache s3 email uid (.int page) (.int per_page) cursor uc now).status = 400 ∧
      (list_files_optimized db cache s3 email uid (.int page) (.int per_page) cursor uc now).storeTouched = false) ∧
    (1000 < per_page →
      (list_files_optimized db cache s3 email uid (.int page) (.int per_page) cursor uc now).status = 400 ∧
      (list_files_optimized db cache s3 email uid (.int page) (.int per_page) cursor uc now).storeTouched = false) ∧
    ((pageP = .invalid ∨ perPageP = .invalid) →
      (list_files_v2 db s3 email pageP perPageP cursor uc now).status = 400 ∧
      (list_files_v2 db s3 email pageP perPageP cursor uc now).storeTouched = false ∧
      (list_files_optimized db cache s3 email uid pageP perPageP cursor uc now).status = 400 ∧
      (list_files_optimized db cache s3 email uid pageP perPageP cursor uc now).storeTouched = false) := by
  refine ⟨?_, ?_, ?_⟩
  · intro h
    have hv2 : (decide (page < 1) || decide (per_page < 1)) = true := by
      rcases h with h | h <;> simp [h]
    have hopt : (decide (page < 1) || decide (per_page < 1) ||
        decide (per_page > 1000)) = true := by
      rcases h with h | h <;> simp [h]
    refine ⟨?_, ?_, ?_, ?_⟩ <;>
      simp [list_files_v2, list_files_optimized, Param.toInt, hv2, hopt]
  · intro h
    have hopt : (decide (page < 1) || decide (per_page < 1) ||
        decide (per_page > 1000)) = true := by
      simp [h]
    constructor <;> simp [list_files_optimized, Param.toInt, hopt]
  · intro h
    rcases h with h | h
    · rw [h]
      refine ⟨?_, ?_, ?_, ?_⟩ <;> simp [list_files_v2, list_files_optimized, Param.toInt]
    · rw [h]
      cases pageP <;>
        refine ⟨?_, ?_, ?_, ?_⟩ <;>
          simp [list_files_v2, list_files_optimized, Param.toInt]

/-- Witness for the C9 amended theorem at concrete invalid requests
(`page = 0`, `per_page = -5` is covered by `per_page < 1`, and
`per_page = 1001` for the optimized cap). -/
theorem c9_validation_witness :
    ((list_files_v2 [] [] "u@x.com" (.int 0) (.int (-5)) none false 0).status = 400 ∧
     (list_files_v2 [] [] "u@x.com" (.int 0) (.int (-5)) none false 0).storeTouched = false) ∧
    ((list_files_optimized [] [] [] "u@x.com" "u1" (.int 1) (.int 1001) none false 0).status = 400 ∧
     (list_files_optimized [] [] [] "u@x.com" "u1" (.int 1) (.int 1001) none false 0).storeTouched = false) ∧
    (list_files_v2 [] [] "u@x.com" .invalid .missing none false 0).status = 400 := by
  have h1 := (c9_validation [] [] [] "u@x.com" "u1" none false 0 0 (-5)
    .invalid .missing).1 (Or.inl (by decide))
  have h2 := (c9_validation [] [] [] "u@x.com" "u1" none false 0 1 1001
    .invalid .missing).2.1 (by decide)
  have h3 := (c9_validation [] [] [] "u@x.com" "u1" none false 0 1 1
    .invalid .missing).2.2 (Or.inl rfl)
  exact ⟨⟨h1.1, h1.2.1⟩, h2, h3.1⟩

/-- C10 counterexample: the confirm filter matches on (key, owner) only,
with no `upload_complete = "pending"` condition; confirming a key whose
only record is already `complete` answers 200, where the claim demands a
not-found client error. -/
theorem c10_confirm_counterexample :
    (∀ r ∈ [confRec], r.upload_complete ≠ "pending") ∧
    (confirm_upload [confRec] "u1" (some "u-x/f.txt")).status = 200 ∧
    (confirm_upload [confRec] "u1" (some "u-x/f.txt")).db = [confRec] := by
  refine ⟨by decide, by decide, by decide⟩

/-- C10 amended: the confirm operation matches the record by storage key
and owner irrespective of its current status, setting it to `complete`;
only when no record at all matches (any status) does it answer 404 and
leave every record unchanged. -/
theorem c10_confirm_amended (db : List FileRecord) (uid k : String)
    (hk : k ≠ "") :
    ((∀ r ∈ db, ¬(r.s3_key = k ∧ r.user = uid)) →
      (confirm_upload db uid (some k)).status = 404 ∧
      (confirm_upload db uid (some k)).db = db) ∧
    (∀ l1 r l2, db = l1 ++ r :: l2 →
      (∀ x ∈ l1, ¬(x.s3_key = k ∧ x.user = uid)) →
      r.s3_key = k → r.user = uid →
      (confirm_upload db uid (some k)).status = 200 ∧
      (confirm_upload db uid (some k)).db =
        l1 ++ { r with upload_complete := "complete" } :: l2) := by
  have hkb : (k == "") = false := by simpa using hk
  constructor
  · intro hnone
    have hsfc : setFirstComplete k uid db = none :=
      (setFirstComplete_eq_none_iff k uid db).mpr
        (fun r hr => recMatch_false_iff.mpr (hnone r hr))
    simp [confirm_upload, hkb, hsfc]
  · intro l1 r l2 hdb h1 hrk hru
    have hsfc := setFirstComplete_append k uid r l2
      (recMatch_iff.mpr ⟨hrk, hru⟩) l1
      (fun x hx => recMatch_false_iff.mpr (h1 x hx))
    rw [hdb]
    simp [confirm_upload, hkb, hsfc]

theorem rename_s3_state (s3 : List S3Object) (k nk : String) (src : S3Object)
    (hnone : s3Head s3 nk = none) (hne : nk ≠ k) :
    s3Head ((s3 ++ [{ src with key := nk }]).filter (fun o => o.key != k)) nk =
      some { src with key := nk } ∧
    s3Head ((s3 ++ [{ src with key := nk }]).filter (fun o => o.key != k)) k = none := by
  constructor
  · unfold s3Head
    rw [List.filter_append]
    have hnew : ([{ src with key := nk }].filter (fun o => o.key != k)) =
        [{ src with key := nk }] := by
      simp [hne]
    rw [hnew]
    have hleft : (s3.filter (fun o => o.key != k)).find? (fun o => o.key == nk) = none := by
      apply find?_eq_none_of_all
      intro o ho
      have homem := (List.mem_filter.mp ho).1
      have hall := List.find?_eq_none.mp hnone
      have h2 := hall o homem
      simpa using h2
    rw [find?_append_none _ hleft]
    simp
  · unfold s3Head
    apply find?_eq_none_of_all
    intro o ho
    have h2 := (List.mem_filter.mp ho).2
    simpa using h2

/-- C3 counterexample: with a record still `pending` and its object
already uploaded, `list_files_optimized` lists the object (the S3 page
is not filtered by record status), so an item appears whose only record
is `pending`. -/
theorem c3_pending_listed_counterexample :
    (∀ r ∈ [pendRec], r.upload_complete ≠ "complete") ∧
    (list_files_optimized [pendRec] [] [pendObj] "u@x.com" "u1"
      (.int 1) (.int 50) none false 3600).status = 200 ∧
    (list_files_optimized [pendRec] [] [pendObj] "u@x.com" "u1"
      (.int 1) (.int 50) none false 3600).filesOf.map (fun f => f.s3_key) =
      ["u-x/p.txt"] := by
  refine ⟨by decide, by decide, by decide⟩

/-- C3 amended: in `list_files_v2` (all pagination modes) every returned
item originates, through `get_s3_metadata`, from a record marked
`complete` — a `pending` record never appears; `list_files_optimized`
does not have this property (its S3 page bypasses the status filter). -/
theorem c3_complete_only (db : List FileRecord) (s3 : List S3Object)
    (email : String) (pageP perPageP : Param) (cursor : Option String)
    (uc : Bool) (now : Nat) :
    ∀ f ∈ (list_files_v2 db s3 email pageP perPageP cursor uc now).filesOf,
      ∃ r, r ∈ db ∧ r.upload_complete = "complete" ∧
        getS3Metadata uc now s3 r = some f := by
  intro f hf
  cases hpt : pageP.toInt 1 with
  | none => simp [list_files_v2, hpt, ListResult.filesOf] at hf
  | some page =>
    cases hppt : perPageP.toInt 50 with
    | none => simp [list_files_v2, hpt, hppt, ListResult.filesOf] at hf
    | some pp =>
      by_cases hcond : (decide (page < 1) || decide (pp < 1)) = true
      · simp [list_files_v2, hpt, hppt, hcond, ListResult.filesOf] at hf
      · have hcond' : (decide (page < 1) || decide (pp < 1)) = false := by
          simpa using hcond
        cases cursor with
        | none =>
          simp only [list_files_v2, hpt, hppt, hcond', Bool.false_eq_true,
            if_false] at hf
          have hmem : f ∈ v2Files (derivePfx email ++ "/") db s3 uc now page pp := by
            simpa [v2Ok, ListResult.filesOf] using hf
          obtain ⟨r, hrdb, hrc, hrg⟩ := v2Files_origin hmem
          exact ⟨r, hrdb, completeWithPfx_complete hrc, hrg⟩
        | some c =>
          by_cases hts : strIsPfx "ts:" c = true
          · simp only [list_files_v2, hpt, hppt, hcond', Bool.false_eq_true,
              if_false, hts, if_true] at hf
            obtain ⟨r, hr, hrg⟩ := List.mem_filterMap.mp
              (by simpa [v2Ok, ListResult.filesOf] using hf)
            obtain ⟨hrdb, hrc⟩ := cursor_candidates_origin hr
            exact ⟨r, hrdb, completeWithPfx_complete hrc, hrg⟩
          · have hts' : strIsPfx "ts:" c = false := by simpa using hts
            by_cases hvo : isValidObjectId c = true
            · simp only [list_files_v2, hpt, hppt, hcond', Bool.false_eq_true,
                if_false, hts', hvo, if_true] at hf
              obtain ⟨r, hr, hrg⟩ := List.mem_filterMap.mp
                (by simpa [v2Ok, ListResult.filesOf] using hf)
              obtain ⟨hrdb, hrc⟩ := cursor_candidates_origin hr
              exact ⟨r, hrdb, completeWithPfx_complete hrc, hrg⟩
            · have hvo' : isValidObjectId c = false := by simpa using hvo
              simp [list_files_v2, hpt, hppt, hcond', hts', hvo',
                ListResult.filesOf] at hf

/-- Witness for the C3 amended theorem: the top item of the scenario
listing originates from the complete record `scenRec3`. -/
theorem c3_complete_only_witness :
    ∃ r, r ∈ scenDb ∧ r.upload_complete = "complete" ∧
      getS3Metadata false 0 scenObjs r =
        some (v2FreshObj { key := "u-x/t3.txt", size := 3, lastModified := 300 }
          "u-x/t3.txt") :=
  c3_complete_only scenDb scenObjs "u@x.com" (.int 1) (.int 2) none false 0
    (v2FreshObj { key := "u-x/t3.txt", size := 3, lastModified := 300 } "u-x/t3.txt")
    (by decide)

/-- C4: the delete endpoint attempts the object-store delete first; when
that fails the request ends with a 500 server error and both stores are
returned untouched (in particular the record still exists with unchanged
fields), and when it succeeds the metadata record is deleted as well, so
afterwards neither the object nor a record matching (key, user)
remains. -/
theorem c4_delete_two_phase (db : List FileRecord) (s3 : List S3Object)
    (uid k : String) (hk : k ≠ "")
    (huniq : (db.filter (recMatch k uid)).length ≤ 1) :
    ((delete_file db s3 uid (some k) false).status = 500 ∧
     (delete_file db s3 uid (some k) false).db = db ∧
     (delete_file db s3 uid (some k) false).s3 = s3) ∧
    ((delete_file db s3 uid (some k) true).status = 200 ∧
     (∀ o ∈ (delete_file db s3 uid (some k) true).s3, o.key ≠ k) ∧
     (∀ r ∈ (delete_file db s3 uid (some k) true).db,
        ¬(r.s3_key = k ∧ r.user = uid))) := by
  have hkb : (k == "") = false := by simpa using hk
  constructor
  · refine ⟨?_, ?_, ?_⟩ <;> simp [delete_file, hkb]
  · cases hdel : deleteOneRecord k uid db with
    | none =>
      have hres : delete_file db s3 uid (some k) true =
          { status := 200, message := "File metadata not found in db."
            db := db, s3 := s3.filter (fun o => o.key != k), s3Deletes := [k] } := by
        simp [delete_file, hkb, hdel]
      have hall := (deleteOneRecord_eq_none_iff k uid db).mp hdel
      refine ⟨by rw [hres], ?_, ?_⟩
      · rw [hres]
        intro o ho
        have := (List.mem_filter.mp ho).2
        simpa using this
      · rw [hres]
        intro r hr
        exact recMatch_false_iff.mp (hall r hr)
    | some db' =>
      have hres : delete_file db s3 uid (some k) true =
          { status := 200, message := "File deleted successfully."
            db := db', s3 := s3.filter (fun o => o.key != k), s3Deletes := [k] } := by
        simp [delete_file, hkb, hdel]
      refine ⟨by rw [hres], ?_, ?_⟩
      · rw [hres]
        intro o ho
        have := (List.mem_filter.mp ho).2
        simpa using this
      · rw [hres]
        intro r hr
        exact recMatch_false_iff.mp
          (deleteOneRecord_some_no_match k uid db db' hdel huniq r hr)

/-- Witness for C4 at a concrete snapshot. -/
theorem c4_delete_two_phase_witness :
    (delete_file [confRec] [pendObj] "u1" (some "u-x/f.txt") false).db = [confRec] ∧
    (delete_file [confRec] [pendObj] "u1" (some "u-x/f.txt") true).status = 200 :=
  ⟨(c4_delete_two_phase [confRec] [pendObj] "u1" "u-x/f.txt"
      (by decide) (by decide)).1.2.1,
   (c4_delete_two_phase [confRec] [pendObj] "u1" "u-x/f.txt"
      (by decide) (by decide)).2.1⟩

/-- C5 counterexample: `list_files_optimized` reports
`total = max(s3KeyCount, dbCount)`; with two objects under the prefix
but only one complete metadata record, the listing returns total 2 while
the metadata store's count of records matching
{owner, uploadStatus=complete} is 1, contradicting the claimed
equality. -/
theorem c5_total_counterexample :
    (list_files_optimized [c5Rec] [] c5Objs "u@x.com" "u1"
      (.int 1) (.int 50) none false 3600).payload.map (fun p => p.total) = some 2 ∧
    ([c5Rec].filter (optDbFilter "u-x/" "u1")).length = 1 ∧
    (2 : Nat) ≠ 1 := by
  refine ⟨by decide, by decide, by decide⟩

/-- C5 amended: the claimed offset semantics hold for `list_files_v2`:
skip is exactly (page-1)·perPage, the returned total equals the metadata
store's count of complete records under the user's derived key prefix
(though with no owner condition, cf. C1), totalPages is the ceiling, and
— when every candidate reconciles — the page holds
min(perPage, total - skip) items; the three-record scenario behaves as
claimed.  `list_files_optimized` instead returns
`max(s3KeyCount, dbCount)` as the total. -/
theorem c5_offset_semantics (db : List FileRecord) (s3 : List S3Object)
    (email : String) (uc : Bool) (now : Nat) (page pp : Int)
    (hp : 1 ≤ page) (hpp : 1 ≤ pp)
    (hall : ∀ r ∈ v2Filter (derivePfx email ++ "/") db,
      (getS3Metadata uc now s3 r).isSome = true) :
    (list_files_v2 db s3 email (.int page) (.int pp) none uc now).status = 200 ∧
    (list_files_v2 db s3 email (.int page) (.int pp) none uc now).payload.map
        (fun p => p.total) = some (v2Filter (derivePfx email ++ "/") db).length ∧
    (list_files_v2 db s3 email (.int page) (.int pp) none uc now).payload.map
        (fun p => p.total_pages) =
      some (((v2Filter (derivePfx email ++ "/") db).length + pp.toNat - 1) / pp.toNat) ∧
    (list_files_v2 db s3 email (.int page) (.int pp) none uc now).filesOf =
      (v2Candidates (derivePfx email ++ "/") db page pp).filterMap
        (getS3Metadata uc now s3) ∧
    (list_files_v2 db s3 email (.int page) (.int pp) none uc now).filesOf.length =
      min pp.toNat ((v2Filter (derivePfx email ++ "/") db).length -
        ((page - 1) * pp).toNat) ∧
    (list_files_v2 scenDb scenObjs "u@x.com" (.int 1) (.int 2) none false 0).filesOf.map
        (fun f => f.last_modified) = [some (isoOfTime 300), some (isoOfTime 200)] ∧
    (list_files_v2 scenDb scenObjs "u@x.com" (.int 1) (.int 2) none false 0).payload.map
        (fun p => (p.total, p.total_pages)) = some (3, 2) ∧
    (list_files_v2 scenDb scenObjs "u@x.com" (.int 2) (.int 2) none false 0).filesOf.map
        (fun f => f.last_modified) = [some (isoOfTime 100)] := by
  rw [list_files_v2_offset_eq db s3 email uc now page pp hp hpp]
  have hsortlen : (v2Sorted (derivePfx email ++ "/") db).length =
      (v2Filter (derivePfx email ++ "/") db).length :=
    (stableSort_perm lmDescLe _).length_eq
  have hsub : ∀ x ∈ v2Candidates (derivePfx email ++ "/") db page pp,
      x ∈ v2Filter (derivePfx email ++ "/") db := by
    intro x hx
    have hx2 : x ∈ v2Sorted (derivePfx email ++ "/") db :=
      mem_of_mem_dropTake (by simpa [v2Candidates] using hx)
    exact (stableSort_perm lmDescLe _).mem_iff.mp hx2
  have hlen0 : ((v2Candidates (derivePfx email ++ "/") db page pp).filterMap
      (getS3Metadata uc now s3)).length =
      (v2Candidates (derivePfx email ++ "/") db page pp).length :=
    filterMap_length_of_isSome _ (fun x hx => hall x (hsub x hx))
  have hcand_len : (v2Candidates (derivePfx email ++ "/") db page pp).length =
      min pp.toNat ((v2Filter (derivePfx email ++ "/") db).length -
        ((page - 1) * pp).toNat) := by
    simp [v2Candidates, List.length_take, List.length_drop, hsortlen]
  have hfiles : v2Files (derivePfx email ++ "/") db s3 uc now page pp =
      (v2Candidates (derivePfx email ++ "/") db page pp).filterMap
        (getS3Metadata uc now s3) := by
    simp only [v2Files]
    split
    · rename_i hcontra
      exfalso
      simp only [Bool.and_eq_true, decide_eq_true_eq] at hcontra
      obtain ⟨hlt, hpage⟩ := hcontra
      rw [hlen0, hcand_len] at hlt
      have hqnn : (0 : Int) ≤ (page - 1) * pp := mul_nonneg (by omega) (by omega)
      have hq : page * pp = (page - 1) * pp + pp := by ring
      have hmnn : (0 : Int) ≤ page * pp := by omega
      generalize hgq : (page - 1) * pp = q at hq hqnn hlt
      generalize hgm : page * pp = m at hq hmnn hpage
      omega
    · rfl
  refine ⟨rfl, rfl, rfl, ?_, ?_, by decide, by decide, by decide⟩
  · simp [v2Ok, ListResult.filesOf, hfiles]
  · simp only [v2Ok, ListResult.filesOf, hfiles, Option.map_some', Option.getD_some]
    rw [hlen0, hcand_len]

/-- Witness for the C5 amended theorem at the scenario snapshot. -/
theorem c5_offset_semantics_witness :
    (list_files_v2 scenDb scenObjs "u@x.com" (.int 1) (.int 2) none false 0).status = 200 ∧
    (list_files_v2 scenDb scenObjs "u@x.com" (.int 1) (.int 2) none false 0).payload.map
        (fun p => p.total) = some (v2Filter (derivePfx "u@x.com" ++ "/") scenDb).length :=
  ⟨(c5_offset_semantics scenDb scenObjs "u@x.com" false 0 1 2
      (by decide) (by decide) (by decide)).1,
   (c5_offset_semantics scenDb scenObjs "u@x.com" false 0 1 2
      (by decide) (by decide) (by decide)).2.1⟩

/-- Witness for the C10 amended theorem: a pending record is transitioned
to complete. -/
theorem c10_confirm_amended_witness :
    (confirm_upload [pendConfRec] "u1" (some "u-x/g.txt")).status = 200 ∧
    (confirm_upload [pendConfRec] "u1" (some "u-x/g.txt")).db =
      [{ pendConfRec with upload_complete := "complete" }] :=
  (c10_confirm_amended [pendConfRec] "u1" "u-x/g.txt" (by decide)).2
    [] pendConfRec [] rfl (by simp) rfl rfl

/-- C6 counterexample: a dangling record carrying a fresh cached
snapshot is NOT excluded from the listing (the cache short-circuits the
`head_object` probe) and the details lookup answers 200 from the same
cache rather than 404, although the object is absent. -/
theorem c6_fresh_cache_counterexample :
    s3Head [] ghostRec.s3_key = none ∧
    (list_files_v2 [ghostRec] [] "u@x.com" (.int 1) (.int 50) none true
      1500).filesOf.map (fun f => f.s3_key) = ["u-x/gone.txt"] ∧
    (get_file_details [ghostRec] [] "u@x.com" "u1" "u-x/gone.txt" 1500).status = 200 := by
  refine ⟨by decide, by decide, by decide⟩

/-- C6 amended: a candidate record whose object is absent AND whose
cached snapshot is absent or expired is silently dropped from the page
while the reported total still counts it, and the details lookup for its
key answers a 404 not-found; a fresh cached snapshot bypasses both
behaviours (cf. the counterexample). -/
theorem c6_dangling (db : List FileRecord) (s3 : List S3Object)
    (email uid : String) (uc : Bool) (now : Nat) (page pp : Int)
    (r : FileRecord)
    (hp : 1 ≤ page) (hpp : 1 ≤ pp)
    (hr : r ∈ db) (hrpred : completeWithPfx (derivePfx email ++ "/") r = true)
    (hgone : s3Head s3 r.s3_key = none)
    (hnofresh : cacheFresh now r = false)
    (hkeyuniq : ∀ x ∈ db, x.s3_key = r.s3_key → x = r)
    (hcachekey : ∀ x ∈ db, ∀ c, x.cached_metadata = some c → c.s3_key = x.s3_key)
    (hslash : strContainsChar r.s3_key '/' = true)
    (huser : r.user = uid) :
    (list_files_v2 db s3 email (.int page) (.int pp) none uc now).status = 200 ∧
    (list_files_v2 db s3 email (.int page) (.int pp) none uc now).payload.map
        (fun p => p.total) = some (v2Filter (derivePfx email ++ "/") db).length ∧
    r ∈ v2Filter (derivePfx email ++ "/") db ∧
    (∀ f ∈ (list_files_v2 db s3 email (.int page) (.int pp) none uc now).filesOf,
      f.s3_key ≠ r.s3_key) ∧
    (get_file_details db s3 email uid r.s3_key now).status = 404 ∧
    (get_file_details db s3 email uid r.s3_key now).error =
      some "File not found in S3" := by
  have hnone : getS3Metadata uc now s3 r = none := by
    simp [getS3Metadata, hnofresh, hgone]
  have hfindr : findRecord db r.s3_key uid = some r :=
    find?_eq_of_unique hr (recMatch_iff.mpr ⟨rfl, huser⟩)
      (fun x hx hpx => hkeyuniq x hx (recMatch_iff.mp hpx).1)
  rw [list_files_v2_offset_eq db s3 email uc now page pp hp hpp]
  refine ⟨rfl, rfl, ?_, ?_, ?_, ?_⟩
  · unfold v2Filter
    exact List.mem_filter.mpr ⟨hr, hrpred⟩
  · intro f hf
    have hmem : f ∈ v2Files (derivePfx email ++ "/") db s3 uc now page pp := by
      simpa [v2Ok, ListResult.filesOf] using hf
    obtain ⟨x, hxdb, hxc, hxg⟩ := v2Files_origin hmem
    have hkey : f.s3_key = x.s3_key := by
      unfold getS3Metadata at hxg
      split at hxg
      · exact hcachekey x hxdb f hxg
      · cases hhead : s3Head s3 x.s3_key with
        | some obj =>
          rw [hhead] at hxg
          cases hxg
          rfl
        | none =>
          rw [hhead] at hxg
          cases hxg
    intro hfr
    have hxr : x = r := hkeyuniq x hxdb (hkey ▸ hfr)
    rw [hxr] at hxg
    rw [hnone] at hxg
    cases hxg
  · have hres : get_file_details db s3 email uid r.s3_key now =
        { status := 404, error := some "File not found in S3", body := none } := by
      simp [get_file_details, hslash, hfindr, hnofresh, hgone]
    rw [hres]
  · have hres : get_file_details db s3 email uid r.s3_key now =
        { status := 404, error := some "File not found in S3", body := none } := by
      simp [get_file_details, hslash, hfindr, hnofresh, hgone]
    rw [hres]

/-- Witness for the C6 amended theorem: a dangling record with no cached
snapshot is dropped from the page, still counted in the total, and the
details lookup answers 404. -/
theorem c6_dangling_witness :
    (list_files_v2 [bareGhostRec] [] "u@x.com" (.int 1) (.int 50) none true 0).status = 200 ∧
    (∀ f ∈ (list_files_v2 [bareGhostRec] [] "u@x.com" (.int 1) (.int 50)
        none true 0).filesOf, f.s3_key ≠ bareGhostRec.s3_key) ∧
    (get_file_details [bareGhostRec] [] "u@x.com" "u1" bareGhostRec.s3_key 0).status = 404 := by
  have h := c6_dangling [bareGhostRec] [] "u@x.com" "u1" true 0 1 50 bareGhostRec
    (by decide) (by decide) (by decide) (by decide) (by decide) (by decide)
    (by decide) (by decide) (by decide) (by decide)
  exact ⟨h.1, h.2.2.2.1, h.2.2.2.2.1⟩

/-- C7: the rename endpoint rejects with 409 and leaves both stores
untouched when an object already occupies the destination key; after a
successful rename the record's key and display name are updated, lookup
by the new key succeeds, lookup by the old key fails, and the object now
lives only at the new key. -/
theorem c7_rename_semantics (db : List FileRecord) (s3 : List S3Object)
    (uid k nf : String) (doc : FileRecord)
    (hk : k ≠ "") (hnf : nf ≠ "")
    (hfind : findRecord db k uid = some doc) :
    ((s3Head s3 (newKeyFor doc.s3_key nf)).isSome = true →
      (rename_file db s3 uid (some k) (some nf)).status = 409 ∧
      (rename_file db s3 uid (some k) (some nf)).db = db ∧
      (rename_file db s3 uid (some k) (some nf)).s3 = s3) ∧
    (∀ src, s3Head s3 (newKeyFor doc.s3_key nf) = none →
      s3Head s3 doc.s3_key = some src →
      (db.filter (fun r => r.s3_key == doc.s3_key)).length ≤ 1 →
      (∀ r ∈ db, r.s3_key ≠ newKeyFor doc.s3_key nf) →
      (∀ r ∈ db, r.oid = doc.oid → r = doc) →
      doc.s3_key = k ∧
      (rename_file db s3 uid (some k) (some nf)).status = 200 ∧
      findRecord (rename_file db s3 uid (some k) (some nf)).db
        (newKeyFor doc.s3_key nf) uid =
        some { doc with s3_key := newKeyFor doc.s3_key nf, filename := nf } ∧
      findRecord (rename_file db s3 uid (some k) (some nf)).db k uid = none ∧
      s3Head (rename_file db s3 uid (some k) (some nf)).s3
        (newKeyFor doc.s3_key nf) = some { src with key := newKeyFor doc.s3_key nf } ∧
      s3Head (rename_file db s3 uid (some k) (some nf)).s3 doc.s3_key = none) := by
  have hpred := List.find?_some (by simpa [findRecord] using hfind)
  obtain ⟨hkey, hdu⟩ := recMatch_iff.mp hpred
  have hkb : (k == "") = false := by simpa using hk
  have hnfb : (nf == "") = false := by simpa using hnf
  constructor
  · intro hsome
    obtain ⟨o, ho⟩ := Option.isSome_iff_exists.mp hsome
    refine ⟨?_, ?_, ?_⟩ <;> simp [rename_file, hkb, hnfb, hfind, ho]
  · intro src hnone hsrc hlen hnew hoid
    have hne : doc.s3_key ≠ newKeyFor doc.s3_key nf := by
      intro he
      rw [he] at hsrc
      rw [hnone] at hsrc
      exact Option.noConfusion hsrc
    have hlup := rename_db_lookup (newKeyFor doc.s3_key nf) nf uid doc hdu hne db
      (by rw [hkey]; exact hfind) hlen hnew hoid
    have hdbne : (setKeyFilenameByOid doc.oid (newKeyFor doc.s3_key nf) nf db ==
        db) = false := by
      cases hv : (setKeyFilenameByOid doc.oid (newKeyFor doc.s3_key nf) nf db == db) with
      | false => rfl
      | true =>
        exfalso
        have heq := eq_of_beq hv
        have h1 := hlup.1
        rw [heq] at h1
        have h2 : findRecord db (newKeyFor doc.s3_key nf) uid = none :=
          find?_eq_none_of_all
            (fun x hx => recMatch_false_iff.mpr (fun hc => hnew x hx hc.1))
        rw [h2] at h1
        exact Option.noConfusion h1
    have hres : rename_file db s3 uid (some k) (some nf) =
        { status := 200, message := "File renamed successfully."
          db := setKeyFilenameByOid doc.oid (newKeyFor doc.s3_key nf) nf db
          s3 := (s3 ++ [{ src with key := newKeyFor doc.s3_key nf }]).filter
            (fun o => o.key != doc.s3_key) } := by
      simp [rename_file, hkb, hnfb, hfind, hnone, hsrc, hdbne]
    have hs3 := rename_s3_state s3 doc.s3_key (newKeyFor doc.s3_key nf) src
      hnone (Ne.symm hne)
    refine ⟨hkey, by rw [hres], ?_, ?_, ?_, ?_⟩
    · rw [hres]
      exact hlup.1
    · rw [hres, ← hkey]
      exact hlup.2
    · rw [hres]
      exact hs3.1
    · rw [hres]
      exact hs3.2

/-- Witness for C7: a conflicting rename answers 409; without the
conflict the rename succeeds. -/
theorem c7_rename_semantics_witness :
    (rename_file [renRec] [renObj, renObjNew] "u1" (some "u-x/old.txt")
      (some "new.txt")).status = 409 ∧
    (rename_file [renRec] [renObj] "u1" (some "u-x/old.txt")
      (some "new.txt")).status = 200 :=
  ⟨((c7_rename_semantics [renRec] [renObj, renObjNew] "u1" "u-x/old.txt"
      "new.txt" renRec (by decide) (by decide) (by decide)).1 (by decide)).1,
   ((c7_rename_semantics [renRec] [renObj] "u1" "u-x/old.txt"
      "new.txt" renRec (by decide) (by decide) (by decide)).2 renObj
      (by decide) (by decide) (by decide) (by decide) (by decide)).2.1⟩

/-- C8 counterexample: two snapshots holding the same records (a
permutation of each other) with equal `lastModified` values produce
differently ordered pages — the tied pages follow the store's internal
order, so no secondary stable key (such as the record identifier, which
would fix one single order) breaks ties. -/
theorem c8_tie_counterexample :
    ([tieA, tieB] : List FileRecord).Perm [tieB, tieA] ∧
    tieA.last_modified = tieB.last_modified ∧
    (list_files_v2 [tieA, tieB] tieObjs "u@x.com" (.int 1) (.int 50) none
      false 0).filesOf.map (fun f => f.s3_key) = ["u-x/a.txt", "u-x/b.txt"] ∧
    (list_files_v2 [tieB, tieA] tieObjs "u@x.com" (.int 1) (.int 50) none
      false 0).filesOf.map (fun f => f.s3_key) = ["u-x/b.txt", "u-x/a.txt"] := by
  refine ⟨List.Perm.swap tieB tieA [], by decide, by decide, by decide⟩

/-- C8 amended: for a fixed snapshot the candidate sequence is the
stable descending sort of the filtered records by `lastModified` —
deterministic and sorted — but ties are left in the store's internal
order: no secondary key is applied. -/
theorem c8_candidate_order (pfx1 : String) (db : List FileRecord) :
    (v2Sorted pfx1 db).Pairwise (fun a b => lmDescLe a b = true) ∧
    (v2Sorted pfx1 db).Perm (v2Filter pfx1 db) :=
  ⟨stableSort_pairwise lmDescLe lmDescLe_total lmDescLe_trans _,
   stableSort_perm _ _⟩

end SDrive
